import Mathlib

/-!
Verification of the multi-source PDF acquisition engine of `my_paperscraper`
(`my_paperscraper/pdf/pdf.py` and `my_paperscraper/pdf/fallbacks.py`).

Strings and byte streams are modelled as `List Char`; network and filesystem
effects are modelled explicitly: every HTTP request goes through an
environment function, every file write is recorded in a write trace, and
Python exceptions are modelled with `Except PyErr`.
-/

namespace PaperScraper

/-- Byte/character strings of the Python source are modelled as `List Char`. -/
abbrev Str := List Char

/-- The Python exceptions that appear uncaught in the modelled code. -/
inductive PyErr where
  | net        -- requests exceptions / raise_for_status (network, timeout, bad status)
  | index      -- IndexError
  | attr       -- AttributeError (e.g. `None.is_set()`)
  deriving DecidableEq, Repr

/-- Byte strings (`bytes` objects of Python) are modelled as `List Nat`. -/
abbrev Bytes := List Nat

/-- `s.startswith(p)` of Python (over `str` or `bytes` alike). -/
def startsWith {α : Type} [DecidableEq α] : List α → List α → Bool
  | [], _ => true
  | _ :: _, [] => false
  | a :: ps, b :: ss => a = b && startsWith ps ss

/-- `p in s` of Python (substring containment). -/
def containsStr {α : Type} [DecidableEq α] (p : List α) : List α → Bool
  | [] => startsWith p []
  | c :: cs => startsWith p (c :: cs) || containsStr p cs

/-- `s.endswith(p)` of Python. -/
def endsWith {α : Type} [DecidableEq α] (p s : List α) : Bool :=
  startsWith p.reverse s.reverse

/-- `s.replace(a, b)` of Python for single characters. -/
def replaceChar {α : Type} [DecidableEq α] (a b : α) (s : List α) : List α :=
  s.map (fun c => if c = a then b else c)

/-- `s.split(sep)` of Python for a single-character separator: splits at every
occurrence, always returns at least one (possibly empty) part. -/
def splitOnChar {α : Type} [DecidableEq α] (sep : α) : List α → List (List α)
  | [] => [[]]
  | c :: cs =>
    match splitOnChar sep cs with
    | [] => [[]]
    | s :: rest => if c = sep then [] :: s :: rest else (c :: s) :: rest

/-- `s.split(sep)[-1]` of Python (the final part). -/
def lastPart {α : Type} [DecidableEq α] (sep : α) (s : List α) : List α :=
  (splitOnChar sep s).getLastD []

/-- ASCII lower-casing of one byte, as `bytes.lower` / ASCII `str.lower` do:
the codes of `A`-`Z` (65-90) are shifted by 32, everything else is kept. -/
def lowerByte (b : Nat) : Nat :=
  if 65 ≤ b ∧ b ≤ 90 then b + 32 else b

/-- `s.lower()` of Python on a byte string. -/
def lowerBytes (s : Bytes) : Bytes := s.map lowerByte

/-- The bytes of an ASCII string literal (UTF-8 of ASCII is the identity). -/
def strBytes (s : String) : Bytes := s.toList.map Char.toNat

/-- The 4-byte PDF magic header `b"%PDF"`. -/
def pdfMagic : Str := ['%', 'P', 'D', 'F']

/-- Artifact kinds recorded by the engine. -/
inductive Kind where
  | pdf
  | xml
  deriving DecidableEq, Repr

/-- The extension string written for an artifact kind (`.pdf` / `.xml`). -/
def Kind.ext : Kind → Str
  | .pdf => ['.', 'p', 'd', 'f']
  | .xml => ['.', 'x', 'm', 'l']

/-- A file write performed by a strategy: destination path and written bytes. -/
structure FileWrite where
  path : Str
  content : Str
  deriving DecidableEq, Repr

/-!
## HTTP environment

`requests.get(url)` followed by `raise_for_status()` either yields the body
bytes or raises; `HttpEnv` maps each URL to that outcome.  (`.error .net`
covers connection errors, timeouts and non-2xx statuses alike, matching the
single `except Exception` the source uses for all of them.)
-/

/-- Outcome of `requests.get` + `raise_for_status` per URL. -/
abbrev HttpEnv := Str → Except PyErr Str

/-! ## Strategy chain of `save_pdf` (pdf.py, lines 75-99)

For the chain-ordering claim the four fallbacks are abstracted by their
outcomes: invoking a strategy yields `(success, url)` exactly as
`FALLBACKS[name](doi, output_path, proxies=proxies)` does. -/

/-- Names of the four strategies wired into `save_pdf`. -/
inductive Strat where
  | arxiv
  | doi
  | sci_hub
  | bioc_pmc
  deriving DecidableEq, Repr

/-- Outcome that each fallback returns when invoked (`(success, url)`). -/
abbrev StratEnv := Strat → Bool × Option Str

/-- Mutable state threaded through the `if not success:` cascade in
`save_pdf`, plus the trace of strategies actually invoked. -/
structure ChainState where
  success : Bool
  url : Option Str
  otype : Option Kind
  trace : List Strat
  deriving DecidableEq, Repr

/-- One `if not success and guard: success,url = FALLBACKS[name](...)` block of
`save_pdf`; on success the output type is set to `k`. -/
def chainStep (env : StratEnv) (guard : Bool) (name : Strat) (k : Kind)
    (st : ChainState) : ChainState :=
  if !st.success && guard then
    let r := env name
    { success := r.1
      url := r.2
      otype := if r.1 then some k else st.otype
      trace := st.trace ++ [name] }
  else st

/-- Result record built by `save_pdf` (the mutated `paper_metadata` fields),
together with the trace of invoked strategies. -/
structure SavePdfOut where
  success : Bool
  otype : Option Kind
  url : Option Str
  path : Option Str
  trace : List Strat
  deriving DecidableEq, Repr

/-- `save_pdf` (pdf.py lines 66-99): the strategy cascade
arxiv (guarded by `"arxiv" in doi`) → doi → sci_hub → bioc_pmc, with the
final assignment of `success`/`type`/`url`/`path`. -/
def save_pdf (env : StratEnv) (doi : Str) (output_path : Str) : SavePdfOut :=
  let st0 : ChainState := ⟨false, none, none, []⟩
  let st1 := chainStep env (containsStr ['a', 'r', 'x', 'i', 'v'] doi) .arxiv .pdf st0
  let st2 := chainStep env true .doi .pdf st1
  let st3 := chainStep env true .sci_hub .pdf st2
  let st4 := chainStep env true .bioc_pmc .xml st3
  { success := st4.success
    otype := st4.otype
    url := st4.url
    path :=
      match st4.success, st4.otype with
      | true, some k => some (output_path ++ k.ext)
      | _, _ => none
    trace := st4.trace }

/-- The fixed chain applicable to `doi`: the arXiv resolver participates only
when the identifier contains `"arxiv"`, followed by doi → sci_hub → bioc_pmc. -/
def applicableChain (doi : Str) : List Strat :=
  (if containsStr ['a', 'r', 'x', 'i', 'v'] doi then [Strat.arxiv] else [])
    ++ [Strat.doi, Strat.sci_hub, Strat.bioc_pmc]

/-- The prefix of a strategy list up to and including the first success:
the invocation sequence of a short-circuiting chain. -/
def takeUntilSuccess (env : StratEnv) : List Strat → List Strat
  | [] => []
  | s :: rest => if (env s).1 then [s] else s :: takeUntilSuccess env rest

/-! ## PDF-downloading fallbacks (fallbacks.py)

Each strategy is modelled with the HTTP environment plus, where the source
uses BeautifulSoup, a parsing oracle.  Results carry the list of file writes
performed, so "no file exists at the destination afterward" is the statement
that the write trace is empty. -/

/-- `f"https://doi.org/{doi}"`. -/
def doiOrgUrl (doi : Str) : Str := "https://doi.org/".toList ++ doi

/-- `"https://www.sci-hub.ren/" + doi + "#"`. -/
def sciHubUrl (doi : Str) : Str := "https://www.sci-hub.ren/".toList ++ doi ++ ['#']

/-- The shared download step of `fallback_doi` and `fallback_sci_hub`:
fetch `url`, reject any body not starting with `b"%PDF"`, otherwise write it
to `<output_path>.pdf` and succeed with the source URL. -/
def downloadPdfTo (env : HttpEnv) (output_path url : Str) :
    (Bool × Option Str) × List FileWrite :=
  match env url with
  | .error _ => ((false, none), [])
  | .ok content =>
    if content.take 4 ≠ pdfMagic then ((false, none), [])
    else ((true, some url), [⟨output_path ++ Kind.pdf.ext, content⟩])

/-- `fallback_doi` (fallbacks.py lines 550-577): resolve the DOI redirect,
scrape the `citation_pdf_url` meta tag (`findMeta`, `None` when the tag or its
content is missing), download it, and accept only a `%PDF`-headed body. -/
def fallback_doi (env : HttpEnv) (findMeta : Str → Option Str)
    (doi output_path : Str) : (Bool × Option Str) × List FileWrite :=
  match env (doiOrgUrl doi) with
  | .error _ => ((false, none), [])
  | .ok page =>
    match findMeta page with
    | some pdf_url => downloadPdfTo env output_path pdf_url
    | none => ((false, none), [])

/-- `fallback_sci_hub` (fallbacks.py lines 480-515).  `srcOf` models reading
`soup.iframe.attrs["src"]` / `soup.embed.attrs["src"]` from the page (it may
raise, which the source's blanket `except` catches).  The entire body sits in
one `try`, so every internal failure yields `(False, None)`. -/
def fallback_sci_hub (env : HttpEnv) (srcOf : Str → Except PyErr Str)
    (doi output_path : Str) : (Bool × Option Str) × List FileWrite :=
  match env (sciHubUrl doi) with
  | .error _ => ((false, none), [])
  | .ok page =>
    match srcOf page with
    | .error _ => ((false, none), [])
    | .ok src =>
      let download_url :=
        if startsWith "http".toList src then src else "https:".toList ++ src
      downloadPdfTo env output_path download_url

/-- The separator `"arxiv."` used by `doi.split("arxiv.")`. -/
def arxivSep : Str := "arxiv.".toList

/-- `s.split("arxiv.")` of Python: split at every non-overlapping occurrence
of the six-character separator, scanning left to right. -/
def splitSeqArxiv (l : Str) : List Str :=
  match l with
  | [] => [[]]
  | c :: cs =>
    if startsWith arxivSep (c :: cs) then
      [] :: splitSeqArxiv (cs.drop 5)
    else
      match splitSeqArxiv cs with
      | [] => [[]]
      | s :: rest => (c :: s) :: rest
termination_by l.length
decreasing_by
  · simp only [List.length_drop, List.length_cons]; omega
  · simp only [List.length_cons]; omega

/-- The old-style archive prefixes tried by `fallback_arxiv`. -/
def arxivArchives : List Str := ["physics".toList, "astro-ph".toList, "cond-mat".toList]

/-- `f"https://arxiv.org/pdf/{suffix}"`. -/
def arxivPdfUrl (suffix : Str) : Str := "https://arxiv.org/pdf/".toList ++ suffix

/-- The `for i in temp:` loop of `fallback_arxiv`: try each candidate URL,
accept the first `%PDF`-headed body, silently skip failures. -/
def arxivTryUrls (env : HttpEnv) (output_path : Str) :
    List Str → (Bool × Option Str) × List FileWrite
  | [] => ((false, none), [])
  | u :: rest =>
    match env u with
    | .error _ => arxivTryUrls env output_path rest
    | .ok content =>
      if content.take 4 = pdfMagic then
        ((true, some u), [⟨output_path ++ Kind.pdf.ext, content⟩])
      else arxivTryUrls env output_path rest

/-- `fallback_arxiv` (fallbacks.py lines 517-548).  `doi.split("arxiv.")[1]`
raises `IndexError` when `"arxiv"` occurs without `"arxiv."`; that access is
not guarded, so the model propagates `.error .index` there. -/
def fallback_arxiv (env : HttpEnv) (doi output_path : Str) :
    Except PyErr (Bool × Option Str) × List FileWrite :=
  if containsStr ['a', 'r', 'x', 'i', 'v'] doi then
    match splitSeqArxiv doi with
    | _ :: d :: _ =>
      let lenth := (splitOnChar '.' d).length
      if lenth = 1 then
        let r := arxivTryUrls env output_path
          (arxivArchives.map (fun p => arxivPdfUrl (p ++ ['/'] ++ d)))
        (.ok r.1, r.2)
      else if lenth = 2 then
        match env (arxivPdfUrl d) with
        | .error _ => (.ok (false, none), [])
        | .ok content =>
          if content.take 4 = pdfMagic then
            (.ok (true, some (arxivPdfUrl d)), [⟨output_path ++ Kind.pdf.ext, content⟩])
          else (.ok (false, none), [])
      else (.ok (false, none), [])
    | _ => (.error .index, [])
  else (.ok (false, none), [])

/-- `doi.replace("/", "%2F")` of `fallback_wiley_api`. -/
def encodeDoi (doi : Str) : Str :=
  doi.flatMap (fun c => if c = '/' then "%2F".toList else [c])

/-- `f"https://api.wiley.com/onlinelibrary/tdm/v1/articles/{encoded_doi}"`. -/
def wileyUrl (doi : Str) : Str :=
  "https://api.wiley.com/onlinelibrary/tdm/v1/articles/".toList ++ encodeDoi doi

/-- The `while attempt < max_attempts` loop of `fallback_wiley_api`: a request
failure or a non-`%PDF` body both advance to the next attempt; only a
`%PDF`-headed body is written and breaks with success. -/
def wileyAttempts (env : HttpEnv) (url output_path : Str) :
    Nat → Bool × List FileWrite
  | 0 => (false, [])
  | n + 1 =>
    match env url with
    | .error _ => wileyAttempts env url output_path n
    | .ok content =>
      if content.take 4 ≠ pdfMagic then wileyAttempts env url output_path n
      else (true, [⟨output_path ++ Kind.pdf.ext, content⟩])

/-- `fallback_wiley_api` (fallbacks.py lines 28-92), rate-limit sleeps elided
(they do not affect the returned value or the writes). -/
def fallback_wiley_api (env : HttpEnv) (doi output_path : Str)
    (max_attempts : Nat := 2) : Bool × List FileWrite :=
  wileyAttempts env (wileyUrl doi) output_path max_attempts

/-- The NCBI ID converter endpoint of `fallback_bioc_pmc`; the fixed
`tool`/`email`/`idtype`/`format` query parameters are elided, the DOI is the
only varying part of the request. -/
def pmcConverterUrl (doi : Str) : Str :=
  "https://www.ncbi.nlm.nih.gov/pmc/utils/idconv/v1.0/?ids=".toList ++ doi

/-- `f"https://www.ncbi.nlm.nih.gov/research/bionlp/RESTful/pmcoa.cgi/BioC_xml/{pmcid}/unicode"`. -/
def biocXmlUrl (pmcid : Str) : Str :=
  "https://www.ncbi.nlm.nih.gov/research/bionlp/RESTful/pmcoa.cgi/BioC_xml/".toList
    ++ pmcid ++ "/unicode".toList

/-- The error banner the BioC endpoint serves instead of an HTTP error. -/
def biocErrPrefix : Str :=
  "[Error] : No result can be found. <BR><HR><B> - https://www.ncbi.nlm.nih.gov/research/bionlp/RESTful/".toList

/-- `fallback_bioc_pmc` (fallbacks.py lines 95-179).  `parsePmcid` models
`conv_response.json()["records"][0]["pmcid"]`: `none` covers both a missing
record/pmcid (explicit `return False, None`) and a JSON parse failure (caught
by the same `except`).  A body starting with the `[Error]` banner is rejected
even though the HTTP layer succeeded. -/
def fallback_bioc_pmc (env : HttpEnv) (parsePmcid : Str → Option Str)
    (doi output_path : Str) : (Bool × Option Str) × List FileWrite :=
  match env (pmcConverterUrl doi) with
  | .error _ => ((false, none), [])
  | .ok data =>
    match parsePmcid data with
    | none => ((false, none), [])
    | some pmcid =>
      let xml_url := biocXmlUrl pmcid
      match env xml_url with
      | .error _ => ((false, none), [])
      | .ok content =>
        if startsWith biocErrPrefix content then ((false, none), [])
        else ((true, some xml_url), [⟨output_path ++ Kind.xml.ext, content⟩])

/-- An HTTP response with its status code, for the one strategy that
inspects `response.status_code` before `raise_for_status`. -/
structure HttpResp where
  status : Nat
  body : Str
  deriving DecidableEq, Repr

/-- `f"https://api.elsevier.com/content/article/doi/{doi}?apiKey={key}&httpAccept=text%2Fxml"`. -/
def elsevierUrl (api_key doi : Str) : Str :=
  "https://api.elsevier.com/content/article/doi/".toList ++ doi
    ++ "?apiKey=".toList ++ api_key ++ "&httpAccept=text%2Fxml".toList

/-- `fallback_elsevier_api` (fallbacks.py lines 182-234).  The third
component records every Elsevier API request the invocation issues.
`validXml` models `etree.fromstring` succeeding.  A 401 answer (with or
without `APIKEY_INVALID` in the body — the distinction only changes the log
message) is an explicit decline; `raise_for_status` on another 4xx/5xx is
caught by the blanket `except`; invalid XML is a decline; the function keeps
no state between invocations. -/
def fallback_elsevier_api (envS : Str → Except PyErr HttpResp)
    (validXml : Str → Bool) (api_key doi output_path : Str) :
    (Bool × List FileWrite) × List Str :=
  let api_url := elsevierUrl api_key doi
  match envS api_url with
  | .error _ => ((false, []), [api_url])
  | .ok resp =>
    if resp.status = 401 then ((false, []), [api_url])
    else if 400 ≤ resp.status then ((false, []), [api_url])
    else if validXml resp.body then
      ((true, [⟨output_path ++ Kind.xml.ext, resp.body⟩]), [api_url])
    else ((false, []), [api_url])

/-! ## Deduplication in `_process_single_paper` (pdf.py lines 340-398)

The filesystem visible to the dedup scan: the subdirectories of
`Path(pdf_path).parent` in iteration order, and the set of files existing
inside them. -/

/-- Fields of the paper metadata dictionary used by the orchestrator. -/
structure PaperRec where
  doi : Option Str
  success : Bool
  is_materials : Bool
  otype : Option Kind
  path : Option Str
  url : Option Str
  deriving DecidableEq, Repr

instance : Inhabited PaperRec := ⟨⟨none, false, false, none, none, none⟩⟩

/-- Directories and files visible to the dedup scan of
`_process_single_paper`: `siblings` lists the subdirectories of
`Path(pdf_path).parent` (in iteration order), `files` the
`(directory, filename)` pairs that exist on disk. -/
structure DedupFS where
  siblings : List Str
  files : List (Str × Str)
  deriving DecidableEq, Repr

/-- `(subdir / name).exists()`. -/
def fileExists (fs : DedupFS) (d name : Str) : Bool :=
  decide ((d, name) ∈ fs.files)

/-- `subdir / name` as a path. -/
def joinPath (d name : Str) : Str := d ++ ['/'] ++ name

/-- Outcome of `_process_single_paper`: `skip` models `return None`,
`adopted` the dedup early-return, and `fetch` the fall-through that invokes
`save_pdf` (with or without proxies) — the only constructor that performs
network calls. -/
inductive ProcResult where
  | skip
  | adopted (p : PaperRec)
  | fetch (p : PaperRec)
  deriving DecidableEq, Repr

/-- The record returned by the dedup early-return: the request with
`success = True`, the found kind, the prior file's path, and the other result
fields still reset. -/
def adoptedRec (paper : PaperRec) (k : Kind) (fp : Str) : PaperRec :=
  { paper with success := true, otype := some k, path := some fp, url := none }

/-- The `for subdir in Path(pdf_path).parent.iterdir():` loop: in each
sibling directory, first check for the `.pdf` artifact, then the `.xml`
artifact, and adopt the first hit. -/
def dedupScan (fs : DedupFS) (filename : Str) : List Str → Option (Kind × Str)
  | [] => none
  | d :: ds =>
    if fileExists fs d (filename ++ Kind.pdf.ext) then
      some (.pdf, joinPath d (filename ++ Kind.pdf.ext))
    else if fileExists fs d (filename ++ Kind.xml.ext) then
      some (.xml, joinPath d (filename ++ Kind.xml.ext))
    else dedupScan fs filename ds

/-- `_process_single_paper` (pdf.py lines 340-398) up to the dispatch into
`save_pdf`: skip already-successful / non-material / DOI-less requests, reset
the result fields, scan sibling directories for an existing artifact, and
adopt it if found; otherwise fall through to `save_pdf`. -/
def process_single_paper (fs : DedupFS) (paper : PaperRec) : ProcResult :=
  if paper.success || !paper.is_materials then .skip
  else
    let p0 : PaperRec :=
      { paper with success := false, otype := none, path := none, url := none }
    match paper.doi with
    | none => .skip
    | some ident =>
      let filename := replaceChar '/' '_' ident
      match dedupScan fs filename fs.siblings with
      | some (k, fp) => .adopted (adoptedRec p0 k fp)
      | none => .fetch p0

/-- Concrete filesystem for the C4 witness: one sibling directory holding
`10.1000_xyz.pdf`. -/
def dedupFsW : DedupFS :=
  ⟨["other".toList], [("other".toList, "10.1000_xyz.pdf".toList)]⟩

/-- Concrete scheduled request for the C4 witness. -/
def dedupPaperW : PaperRec :=
  ⟨some "10.1000/xyz".toList, false, true, none, none, none⟩

/-! ## Archive locator (fallbacks.py lines 322-478)

The S3 strategies operate on Python `bytes`; strings in this section are
`Bytes` (`List Nat`, byte 46 = `.`, 47 = `/`). -/

/-- A calendar date as produced by `datetime.date.fromisoformat`. -/
structure PyDate where
  year : Nat
  month : Nat
  day : Nat
  deriving DecidableEq, Repr

/-- Gregorian leap-year rule, as `calendar` uses. -/
def isLeap (y : Nat) : Bool :=
  y % 4 = 0 && (y % 100 ≠ 0 || y % 400 = 0)

/-- `calendar.monthrange(y, m)[1]`: the number of days of month `m`. -/
def monthrange (y m : Nat) : Nat :=
  if m = 2 then (if isLeap y then 29 else 28)
  else if m = 4 ∨ m = 6 ∨ m = 9 ∨ m = 11 then 30
  else 31

/-- `date + datetime.timedelta(days=1)`. -/
def nextDayDate (d : PyDate) : PyDate :=
  if d.day < monthrange d.year d.month then ⟨d.year, d.month, d.day + 1⟩
  else if d.month < 12 then ⟨d.year, d.month + 1, 1⟩
  else ⟨d.year + 1, 1, 1⟩

/-- `%B`: the full month name used by `date.strftime`. -/
def monthName : Nat → Bytes
  | 1 => strBytes "January"
  | 2 => strBytes "February"
  | 3 => strBytes "March"
  | 4 => strBytes "April"
  | 5 => strBytes "May"
  | 6 => strBytes "June"
  | 7 => strBytes "July"
  | 8 => strBytes "August"
  | 9 => strBytes "September"
  | 10 => strBytes "October"
  | 11 => strBytes "November"
  | 12 => strBytes "December"
  | _ => []

/-- `%Y`: the decimal digits of the year. -/
def yearBytes (y : Nat) : Bytes := (Nat.toDigits 10 y).map Char.toNat

/-- `date.strftime("%B_%Y")`, e.g. `October_2019`. -/
def strftimeBY (d : PyDate) : Bytes :=
  monthName d.month ++ [95] ++ yearBytes d.year

/-- The date arithmetic of `month_folder` (fallbacks.py lines 340-344): roll
the date forward one day when it is the last calendar day of its month, then
format the bucket name. -/
def month_folder_date (d : PyDate) : Bytes :=
  let last_day := monthrange d.year d.month
  let d' := if d.day = last_day then nextDayDate d else d
  strftimeBY d'

/-- `f"https://api.biorxiv.org/details/biorxiv/{doi}/na/json"`. -/
def biorxivUrl (doi : Bytes) : Bytes :=
  strBytes "https://api.biorxiv.org/details/biorxiv/" ++ doi ++ strBytes "/na/json"

/-- `month_folder` (fallbacks.py lines 322-344): query the bioRxiv details
API for the posting date and derive the monthly bucket.  Neither
`raise_for_status` nor the JSON/date parsing (`parseDate`, modelling
`resp.json()["collection"][0]["date"]` + `fromisoformat`) is guarded by a
`try`, so failures propagate to the caller. -/
def month_folder (env : Bytes → Except PyErr Bytes)
    (parseDate : Bytes → Except PyErr PyDate) (doi : Bytes) :
    Except PyErr Bytes :=
  match env (biorxivUrl doi) with
  | .error e => .error e
  | .ok body =>
    match parseDate body with
    | .error e => .error e
    | .ok date => .ok (month_folder_date date)

/-- A ranged S3 read: `bytes={a}-{b}` or the suffix form `bytes=-{n}`. -/
inductive ByteRange where
  | firstBytes (a b : Nat)
  | lastBytes (n : Nat)
  deriving DecidableEq, Repr

/-- `find_meca_for_doi` (fallbacks.py lines 370-400): fetch the first 4096
and the last 4096 bytes of the container via two ranged reads (the `try`
covers exactly these two reads), concatenate them, read `manifest.xml` out of
the window (`readManifest`, modelling `ZipFile(...).read("manifest.xml")`,
which is *not* inside the `try`), and test whether the trailing
dot-separated part of the token occurs in the lower-cased manifest.  The
second component records the ranged reads issued. -/
def find_meca_for_doi (s3Get : Bytes → ByteRange → Except PyErr Bytes)
    (readManifest : Bytes → Except PyErr Bytes) (key doi_token : Bytes) :
    Except PyErr Bool × List ByteRange :=
  match s3Get key (.firstBytes 0 4095) with
  | .error _ => (.ok false, [.firstBytes 0 4095])
  | .ok head =>
    match s3Get key (.lastBytes 4096) with
    | .error _ => (.ok false, [.firstBytes 0 4095, .lastBytes 4096])
    | .ok tail =>
      match readManifest (head ++ tail) with
      | .error e => (.error e, [.firstBytes 0 4095, .lastBytes 4096])
      | .ok manifest =>
        let token := lastPart 46 doi_token
        (.ok (containsStr token (lowerBytes manifest)),
          [.firstBytes 0 4095, .lastBytes 4096])

/-- `list_meca_keys` (fallbacks.py lines 347-367): keep the object keys
ending in `.meca` from the listing of the prefix. -/
def list_meca_keys (objKeys : List Bytes) : List Bytes :=
  objKeys.filter (fun k => endsWith (strBytes ".meca") k)

/-- `future.result()` handling in the scan loop of `fallback_s3`: a probe
that matched wins, a probe that raised is ignored (`except Exception: pass`). -/
def probeHit (s3Get : Bytes → ByteRange → Except PyErr Bytes)
    (readManifest : Bytes → Except PyErr Bytes) (token key : Bytes) : Bool :=
  match (find_meca_for_doi s3Get readManifest key token).1 with
  | .ok b => b
  | .error _ => false

/-- Observable S3 actions of the download phase of `fallback_s3`. -/
inductive S3Ev where
  | fullFetch (key : Bytes)
  | extract (name : Bytes)
  | renameTo (name dst : Bytes)
  deriving DecidableEq, Repr

/-- `fallback_s3` (fallbacks.py lines 403-478).  `listObjects` models the
paginated listing, `order` the completion order of the concurrent manifest
probes (`as_completed` yields them in a nondeterministic order, so it is a
parameter); the first completed probe reporting a match becomes the target
and the remaining futures are cancelled.  The matched container is fetched
once in full, and the first entry whose lower-cased name ends in `.pdf` is
extracted and renamed onto the destination with a `.pdf` suffix.
`month_folder` and the full `get_object` are not guarded, so their failures
propagate. -/
def fallback_s3 (env : Bytes → Except PyErr Bytes)
    (parseDate : Bytes → Except PyErr PyDate)
    (listObjects : Bytes → List Bytes)
    (s3Get : Bytes → ByteRange → Except PyErr Bytes)
    (readManifest : Bytes → Except PyErr Bytes)
    (getFull : Bytes → Except PyErr Bytes)
    (zipNames : Bytes → List Bytes)
    (order : List Bytes)
    (doi output_path : Bytes) : Except PyErr (Bool × List S3Ev) :=
  match month_folder env parseDate doi with
  | .error e => .error e
  | .ok mf =>
    let pre := strBytes "Current_Content/" ++ mf ++ strBytes "/"
    let meca_keys := list_meca_keys (listObjects pre)
    if meca_keys = [] then .ok (false, [])
    else
      let token := lowerBytes (lastPart 47 doi)
      match order.find? (probeHit s3Get readManifest token) with
      | none => .ok (false, [])
      | some target =>
        match getFull target with
        | .error e => .error e
        | .ok data =>
          match (zipNames data).find?
              (fun n => endsWith (strBytes ".pdf") (lowerBytes n)) with
          | some name =>
            .ok (true, [.fullFetch target, .extract name,
              .renameTo name (output_path ++ strBytes ".pdf")])
          | none => .ok (false, [.fullFetch target])

/-! ## Orchestrator `save_pdf_from_dump_new` (pdf.py lines 402-524)

The state store `metadict` is a Python dict keyed by `paper["doi"]`
(possibly `None`): an insertion-ordered association list with in-place
replacement.  Worker completions are modelled as the sequence of
`as_completed` events; each completed event carries the value
`len(os.listdir(pdf_path))` would return at its quota check and the value
`stop_event.is_set()` would return there if the event object exists.
`stop_event : Option Unit` distinguishes a supplied `threading.Event`
(`some ()`) from the default `None`. -/

/-- The in-memory `metadict` (insertion-ordered, last write wins). -/
abbrev Store := List (Option Str × PaperRec)

/-- `metadict[k] = v` on a Python dict: replace in place, else append. -/
def dinsert (k : Option Str) (v : PaperRec) : Store → Store
  | [] => [(k, v)]
  | kv :: rest => if kv.1 = k then (k, v) :: rest else kv :: dinsert k v rest

/-- The keys of the store, in insertion order. -/
def storeKeys (m : Store) : List (Option Str) := m.map (·.1)

/-- The initial load loop: `for line in f.readlines():
metadict[paper["doi"]] = paper`. -/
def load_dump (dumpLines : List PaperRec) : Store :=
  dumpLines.foldl (fun m p => dinsert p.doi p m) []

/-- One `as_completed` event: a future observed as cancelled (skipped by
`if future.cancelled(): continue`), or a completed task carrying the result
of `_process_single_paper` (`none` models `return None`), the output
directory entry count at the subsequent check, and the external signal state
there. -/
inductive TaskEv where
  | cancelled
  | completed (result : Option PaperRec) (dirCount : Nat) (stopSet : Bool)
  deriving DecidableEq, Repr

/-- The `for future in as_completed(future_to_paper):` loop.  A `None`
result is logged and `continue`s — skipping the quota/stop check.  For a
metadata result the store is updated and then
`len(os.listdir(pdf_path)) > max_pdf_num or stop_event.is_set()` runs: when
the count exceeds the quota, `or` short-circuits (futures are cancelled, the
loop goes on); otherwise `stop_event.is_set()` is evaluated — an
`AttributeError` when `stop_event` is `None`, and just future cancellation
(the loop goes on) when the event is set. -/
def processEvents (stop_event : Option Unit) (max_pdf_num : Nat) :
    List TaskEv → Store → Except PyErr Store
  | [], m => .ok m
  | .cancelled :: es, m => processEvents stop_event max_pdf_num es m
  | .completed res cnt _stop :: es, m =>
    match res with
    | none => processEvents stop_event max_pdf_num es m
    | some md =>
      let m' := dinsert md.doi md m
      if max_pdf_num < cnt then processEvents stop_event max_pdf_num es m'
      else
        match stop_event with
        | none => .error .attr
        | some _ => processEvents stop_event max_pdf_num es m'

/-- `f_save_metadata` (pdf.py lines 473-477): reopen the dump file with mode
`"w"` (truncating it) and write one JSON line per `metadict` entry — the
file contents after the flush are exactly the records of the store. -/
def f_save_metadata (m : Store) : List PaperRec := m.map (·.2)

/-- The store contents after the event sequence, ignoring the checks: what
the loop accumulates when no exception interrupts it. -/
def pureProcess : List TaskEv → Store → Store
  | [], m => m
  | .cancelled :: es, m => pureProcess es m
  | .completed none _ _ :: es, m => pureProcess es m
  | .completed (some md) _ _ :: es, m => pureProcess es (dinsert md.doi md m)

/-- An event that reaches the quota/stop check with the entry count at or
below the quota — exactly the situations in which
`stop_event.is_set()` is actually evaluated. -/
def triggersDeref (max_pdf_num : Nat) : TaskEv → Bool
  | .completed (some _) cnt _ => decide (cnt ≤ max_pdf_num)
  | _ => false

/-- Observable outcome of one orchestrator run: the state-store file content
after the run (`none` = the flush never executed, the file keeps its prior
content) and how control left the function (`ok false` = normal return,
`ok true` = `exit()` after the cancellation signal, `error` = an uncaught
exception). -/
structure RunOut where
  file : Option (List PaperRec)
  outcome : Except PyErr Bool
  deriving Repr

/-- `save_pdf_from_dump_new` (pdf.py lines 402-524) from the dump load to
termination: load `metadict`, drain the completion events, then
`f_save_metadata(None, None)` rewrites the store file in full, and finally
`if stop_event.is_set(): exit()` runs — raising `AttributeError` when
`stop_event` is the default `None`, exiting when the signal is set
(`finalStop`), returning normally otherwise. -/
def save_pdf_from_dump_new (stop_event : Option Unit) (max_pdf_num : Nat)
    (dumpLines : List PaperRec) (events : List TaskEv) (finalStop : Bool) :
    RunOut :=
  let meta0 := load_dump dumpLines
  match processEvents stop_event max_pdf_num events meta0 with
  | .error e => ⟨none, .error e⟩
  | .ok m =>
    let file := some (f_save_metadata m)
    match stop_event with
    | none => ⟨file, .error .attr⟩
    | some _ => if finalStop then ⟨file, .ok true⟩ else ⟨file, .ok false⟩

/-! ## Concrete environments used by witnesses and counterexamples -/

/-- An HTTP world that always serves an HTML page, never a PDF body. -/
def envC3W : HttpEnv := fun _ => .ok "<html>no pdf here</html>".toList

/-- A `citation_pdf_url` parse that always finds a link. -/
def findMetaC3W : Str → Option Str := fun _ => some "https://x.org/a.pdf".toList

/-- A Sci-Hub page parse that always finds an iframe src. -/
def srcOfC3W : Str → Except PyErr Str := fun _ => .ok "//x.org/a.pdf".toList

/-- The S3 read oracle for the archive-probe witness. -/
def s3GetC5W : Bytes → ByteRange → Except PyErr Bytes := fun _ r =>
  match r with
  | .firstBytes 0 4095 => .ok (strBytes "PK")
  | .lastBytes 4096 => .ok (strBytes "central-directory")
  | _ => .error .net

/-- The manifest oracle for the archive-probe witness: the manifest mentions
accession `798496` in mixed-case surroundings. -/
def readManifestC5W : Bytes → Except PyErr Bytes := fun _ =>
  .ok (strBytes "Content/798496.PDF MANIFEST")

/-- bioRxiv details endpoint succeeding with an irrelevant body. -/
def s3EnvW : Bytes → Except PyErr Bytes := fun _ => .ok []

/-- Deposit-date lookup resolving to 2020-01-15 (not a month's last day). -/
def parseDateS3W : Bytes → Except PyErr PyDate := fun _ => .ok ⟨2020, 1, 15⟩

/-- A bucket listing holding one candidate container. -/
def listObjectsS3W : Bytes → List Bytes := fun _ => [strBytes "b.meca"]

/-- Ranged reads succeeding with placeholder window bytes. -/
def s3GetS3W : Bytes → ByteRange → Except PyErr Bytes := fun _ _ => .ok (strBytes "PK")

/-- The candidate's manifest, containing the accession `798496`. -/
def readManifestS3W : Bytes → Except PyErr Bytes := fun _ =>
  .ok (strBytes "item 798496 manifest")

/-- The full-container fetch of the matched candidate. -/
def getFullS3W : Bytes → Except PyErr Bytes := fun _ => .ok (strBytes "ZIPDATA")

/-- Container contents with a lower-case `.pdf` entry. -/
def zipNamesS3W : Bytes → List Bytes := fun _ => [strBytes "content/article.pdf"]

/-- Container contents whose only entry has an upper-case `.PDF` name. -/
def zipNamesS3X : Bytes → List Bytes := fun _ => [strBytes "ARTICLE.PDF"]

/-- A network world in which every bioRxiv API request raises. -/
def s3EnvBad : Bytes → Except PyErr Bytes := fun _ => .error .net

/-- A deposit-date parse that never runs (its request already failed). -/
def parseDateBad : Bytes → Except PyErr PyDate := fun _ => .error .net

/-- An empty bucket listing. -/
def listObjectsNone : Bytes → List Bytes := fun _ => []

/-- Ranged reads that always fail. -/
def s3GetBad : Bytes → ByteRange → Except PyErr Bytes := fun _ _ => .error .net

/-- An empty container listing. -/
def zipNamesNone : Bytes → List Bytes := fun _ => []

/-- The Elsevier TDM API answering 401 with `APIKEY_INVALID`. -/
def elsEnv401 : Str → Except PyErr HttpResp := fun _ =>
  .ok ⟨401, "APIKEY_INVALID".toList⟩

/-- An XML validator accepting everything (never reached under a 401). -/
def elsValidXmlW : Str → Bool := fun _ => true

/-- bioRxiv details endpoint for the month-rollover witness. -/
def mfEnvW : Bytes → Except PyErr Bytes := fun _ => .ok []

/-- Deposit-date lookup resolving to 2019-04-30, the last day of April. -/
def mfParseW : Bytes → Except PyErr PyDate := fun _ => .ok ⟨2019, 4, 30⟩

/-! ## Claim theorems -/

lemma takeUntilSuccess_sublist (env : StratEnv) (l : List Strat) :
    List.Sublist (takeUntilSuccess env l) l := by
  induction l with
  | nil => simp [takeUntilSuccess]
  | cons s rest ih =>
    simp only [takeUntilSuccess]
    split
    · exact (List.nil_sublist rest).cons₂ s
    · exact ih.cons₂ s

lemma applicableChain_nodup (doi : Str) : (applicableChain doi).Nodup := by
  unfold applicableChain
  split <;> decide

lemma chainStep_trace_of_success (env : StratEnv) (g : Bool) (n : Strat) (k : Kind)
    (st : ChainState) (h : st.success = true) : chainStep env g n k st = st := by
  simp [chainStep, h]

/-- After the full cascade, the trace equals the short-circuit prefix of the
applicable chain.  Proven by exhausting the success bits of the four
strategies. -/
lemma save_pdf_trace_eq (env : StratEnv) (doi : Str) (out : Str) :
    (save_pdf env doi out).trace = takeUntilSuccess env (applicableChain doi) := by
  unfold save_pdf applicableChain
  rcases harx : containsStr ['a', 'r', 'x', 'i', 'v'] doi with _ | _ <;>
    rcases h1 : (env .arxiv).1 with _ | _ <;>
    rcases h2 : (env .doi).1 with _ | _ <;>
    rcases h3 : (env .sci_hub).1 with _ | _ <;>
    rcases h4 : (env .bioc_pmc).1 with _ | _ <;>
      simp [chainStep, takeUntilSuccess, h1, h2, h3, h4]

/-- Claim C1: `save_pdf` tries the strategies in the fixed order
(1) arXiv resolver — only when the identifier contains the `"arxiv"` prefix —
(2) DOI resolver, (3) Sci-Hub mirror, (4) PMC open repository; the chain
short-circuits on first success (the invocation trace is exactly the prefix of
the applicable chain up to and including the first succeeding strategy), and
each strategy is invoked at most once per request (the trace has no
duplicates). -/
theorem save_pdf_chain_order (env : StratEnv) (doi : Str) (out : Str) :
    (save_pdf env doi out).trace = takeUntilSuccess env (applicableChain doi)
      ∧ (save_pdf env doi out).trace.Nodup := by
  refine ⟨save_pdf_trace_eq env doi out, ?_⟩
  rw [save_pdf_trace_eq env doi out]
  exact ((takeUntilSuccess_sublist env _).nodup (applicableChain_nodup doi))

lemma startsWith_iff_take {α : Type} [DecidableEq α] (p s : List α) :
    startsWith p s = true ↔ s.take p.length = p := by
  induction p generalizing s with
  | nil => simp [startsWith]
  | cons a ps ih =>
    cases s with
    | nil => simp [startsWith]
    | cons b ss =>
      simp only [startsWith, List.length_cons, List.take_succ_cons,
        Bool.and_eq_true, decide_eq_true_eq, ih, List.cons.injEq]
      exact and_congr eq_comm Iff.rfl

lemma no_pdf_take (env : HttpEnv)
    (h : ∀ u b, env u = .ok b → startsWith pdfMagic b = false) :
    ∀ u b, env u = .ok b → b.take 4 ≠ pdfMagic := by
  intro u b henv hEq
  have := (startsWith_iff_take pdfMagic b).mpr hEq
  rw [h u b henv] at this
  exact Bool.false_ne_true this

lemma downloadPdfTo_of_no_pdf (env : HttpEnv) (out : Str)
    (h : ∀ u b, env u = .ok b → startsWith pdfMagic b = false) :
    ∀ url, downloadPdfTo env out url = ((false, none), []) := by
  intro url
  cases henv : env url with
  | error e => simp [downloadPdfTo, henv]
  | ok content =>
    simp only [downloadPdfTo, henv]
    rw [if_pos (no_pdf_take env h url content henv)]

lemma arxivTryUrls_of_no_pdf (env : HttpEnv) (out : Str)
    (h : ∀ u b, env u = .ok b → startsWith pdfMagic b = false) :
    ∀ urls, arxivTryUrls env out urls = ((false, none), []) := by
  intro urls
  induction urls with
  | nil => rfl
  | cons u rest ih =>
    cases henv : env u with
    | error e => simp only [arxivTryUrls, henv]; exact ih
    | ok content =>
      have hc := no_pdf_take env h u content henv
      simp only [arxivTryUrls, henv]
      rw [if_neg hc]
      exact ih

lemma wileyAttempts_of_no_pdf (env : HttpEnv) (url out : Str) (n : Nat)
    (h : ∀ u b, env u = .ok b → startsWith pdfMagic b = false) :
    wileyAttempts env url out n = (false, []) := by
  induction n with
  | zero => rfl
  | succ k ih =>
    cases henv : env url with
    | error e => simp only [wileyAttempts, henv]; exact ih
    | ok content =>
      simp only [wileyAttempts, henv, if_pos (no_pdf_take env h url content henv)]
      exact ih

lemma fallback_arxiv_of_no_pdf (env : HttpEnv) (doi out : Str)
    (h : ∀ u b, env u = .ok b → startsWith pdfMagic b = false) :
    fallback_arxiv env doi out = (.error .index, [])
      ∨ fallback_arxiv env doi out = (.ok (false, none), []) := by
  cases hca : containsStr ['a', 'r', 'x', 'i', 'v'] doi with
  | false => right; simp [fallback_arxiv, hca]
  | true =>
    cases hsp : splitSeqArxiv doi with
    | nil => left; simp [fallback_arxiv, hca, hsp]
    | cons a tl =>
      cases tl with
      | nil => left; simp [fallback_arxiv, hca, hsp]
      | cons d tl2 =>
        by_cases h1 : (splitOnChar '.' d).length = 1
        · right
          simp [fallback_arxiv, hca, hsp, h1, arxivTryUrls_of_no_pdf env out h]
        · by_cases h2 : (splitOnChar '.' d).length = 2
          · cases henv : env (arxivPdfUrl d) with
            | error e => right; simp [fallback_arxiv, hca, hsp, h1, h2, henv]
            | ok content =>
              right
              simp [fallback_arxiv, hca, hsp, h1, h2, henv,
                no_pdf_take env h _ content henv]
          · right; simp [fallback_arxiv, hca, hsp, h1, h2]

/-- Claim C3: for every PDF-downloading strategy (`fallback_doi`,
`fallback_sci_hub`, `fallback_arxiv`, `fallback_wiley_api`), if every HTTP
response whose transport layer succeeds has a body that does not begin with
the 4-byte `%PDF` magic header, then the strategy reports failure and its
write trace is empty — no file is created at the destination. -/
theorem pdf_signature_validation (env : HttpEnv) (findMeta : Str → Option Str)
    (srcOf : Str → Except PyErr Str) (doi output_path : Str)
    (h : ∀ u b, env u = .ok b → startsWith pdfMagic b = false) :
    fallback_doi env findMeta doi output_path = ((false, none), [])
      ∧ fallback_sci_hub env srcOf doi output_path = ((false, none), [])
      ∧ (fallback_arxiv env doi output_path).2 = []
      ∧ (∀ r, (fallback_arxiv env doi output_path).1 = .ok r → r = (false, none))
      ∧ fallback_wiley_api env doi output_path = (false, []) := by
  have noPdf := no_pdf_take env h
  refine ⟨?_, ?_, ?_, ?_, ?_⟩
  · cases h1 : env (doiOrgUrl doi) with
    | error e => simp [fallback_doi, h1]
    | ok page =>
      cases hm : findMeta page with
      | none => simp [fallback_doi, h1, hm]
      | some pdf_url =>
        simp [fallback_doi, h1, hm, downloadPdfTo_of_no_pdf env output_path h]
  · cases h1 : env (sciHubUrl doi) with
    | error e => simp [fallback_sci_hub, h1]
    | ok page =>
      cases hs : srcOf page with
      | error e => simp [fallback_sci_hub, h1, hs]
      | ok src =>
        simp [fallback_sci_hub, h1, hs, downloadPdfTo_of_no_pdf env output_path h]
  · rcases fallback_arxiv_of_no_pdf env doi output_path h with hc | hc <;> rw [hc]
  · rcases fallback_arxiv_of_no_pdf env doi output_path h with hc | hc <;> rw [hc] <;>
      intro r hr
    · cases hr
    · exact (Except.ok.inj hr).symm
  · unfold fallback_wiley_api
    exact wileyAttempts_of_no_pdf env _ output_path 2 h

lemma dedupScan_of_exists (fs : DedupFS) (filename : Str) (l : List Str)
    (hex : ∃ d ∈ l, fileExists fs d (filename ++ Kind.pdf.ext) = true
        ∨ fileExists fs d (filename ++ Kind.xml.ext) = true) :
    ∃ d k, d ∈ l ∧ fileExists fs d (filename ++ k.ext) = true
      ∧ dedupScan fs filename l = some (k, joinPath d (filename ++ k.ext)) := by
  induction l with
  | nil => obtain ⟨d, hd, _⟩ := hex; cases hd
  | cons d0 ds ih =>
    by_cases hpdf : fileExists fs d0 (filename ++ Kind.pdf.ext) = true
    · exact ⟨d0, .pdf, List.mem_cons_self d0 ds, hpdf, by simp [dedupScan, hpdf]⟩
    · by_cases hxml : fileExists fs d0 (filename ++ Kind.xml.ext) = true
      · exact ⟨d0, .xml, List.mem_cons_self d0 ds, hxml,
          by simp [dedupScan, hpdf, hxml]⟩
      · obtain ⟨d, hd, hor⟩ := hex
        rcases List.mem_cons.mp hd with rfl | hd'
        · rcases hor with hc | hc
          · exact absurd hc hpdf
          · exact absurd hc hxml
        · obtain ⟨d', k, hmem, hfe, hscan⟩ := ih ⟨d, hd', hor⟩
          exact ⟨d', k, List.mem_cons_of_mem d0 hmem, hfe,
            by simp [dedupScan, hpdf, hxml, hscan]⟩

/-- Claim C4: a scheduled request (not yet successful, flagged as material,
with a DOI) whose sanitized identifier (slashes replaced by underscores)
already names a `.pdf` or `.xml` file in some sibling directory is adopted:
`_process_single_paper` returns the record with `success = true`, the kind
matching the found extension and the prior file's path, and takes the
`adopted` branch — never the `fetch` branch that invokes `save_pdf` and the
network. -/
theorem dedup_adopts_existing (fs : DedupFS) (paper : PaperRec) (ident : Str)
    (hsuc : paper.success = false) (hmat : paper.is_materials = true)
    (hdoi : paper.doi = some ident)
    (hex : ∃ d ∈ fs.siblings,
        fileExists fs d (replaceChar '/' '_' ident ++ Kind.pdf.ext) = true
          ∨ fileExists fs d (replaceChar '/' '_' ident ++ Kind.xml.ext) = true) :
    ∃ d k, d ∈ fs.siblings
      ∧ fileExists fs d (replaceChar '/' '_' ident ++ k.ext) = true
      ∧ process_single_paper fs paper =
          .adopted (adoptedRec paper k
            (joinPath d (replaceChar '/' '_' ident ++ k.ext))) := by
  obtain ⟨d, k, hmem, hfe, hscan⟩ := dedupScan_of_exists fs _ fs.siblings hex
  refine ⟨d, k, hmem, hfe, ?_⟩
  simp [process_single_paper, hsuc, hmat, hdoi, hscan, adoptedRec]

/-- Witness for C4: scheduling identifier `10.1000/xyz` against an existing
sibling artifact `10.1000_xyz.pdf` adopts the prior file. -/
theorem dedup_adopts_existing_witness :
    process_single_paper dedupFsW dedupPaperW
      = .adopted (adoptedRec dedupPaperW Kind.pdf
          (joinPath "other".toList
            (replaceChar '/' '_' "10.1000/xyz".toList ++ Kind.pdf.ext))) := by
  obtain ⟨d, k, hmem, hfe, heq⟩ :=
    dedup_adopts_existing dedupFsW dedupPaperW "10.1000/xyz".toList rfl rfl rfl
      ⟨"other".toList, by decide, Or.inl (by decide)⟩
  have hd : d = "other".toList := by simpa [dedupFsW] using hmem
  subst hd
  cases k with
  | pdf => exact heq
  | xml => exact absurd hfe (by decide)

lemma mem_storeKeys_dinsert (k : Option Str) (v : PaperRec) (m : Store)
    (x : Option Str) :
    x ∈ storeKeys (dinsert k v m) ↔ x = k ∨ x ∈ storeKeys m := by
  induction m with
  | nil => simp [dinsert, storeKeys]
  | cons kv rest ih =>
    obtain ⟨k', v'⟩ := kv
    by_cases hk : k' = k
    · subst hk
      simp [dinsert, storeKeys]
    · simp only [dinsert, if_neg hk, storeKeys, List.map_cons, List.mem_cons]
      rw [show storeKeys (dinsert k v rest) = List.map (·.1) (dinsert k v rest) from rfl] at ih
      rw [ih]
      tauto

lemma nodup_storeKeys_dinsert (k : Option Str) (v : PaperRec) (m : Store)
    (h : (storeKeys m).Nodup) : (storeKeys (dinsert k v m)).Nodup := by
  induction m with
  | nil => simp [dinsert, storeKeys]
  | cons kv rest ih =>
    obtain ⟨k', v'⟩ := kv
    simp only [storeKeys, List.map_cons, List.nodup_cons] at h
    by_cases hk : k' = k
    · subst hk
      simpa [dinsert, storeKeys] using h
    · have hmem : k' ∉ storeKeys (dinsert k v rest) := by
        rw [mem_storeKeys_dinsert]
        rintro (rfl | hin)
        · exact hk rfl
        · exact h.1 hin
      simp only [dinsert, if_neg hk, storeKeys, List.map_cons, List.nodup_cons]
      exact ⟨hmem, ih h.2⟩

lemma nodup_storeKeys_foldl (dumpLines : List PaperRec) (m : Store)
    (h : (storeKeys m).Nodup) :
    (storeKeys (dumpLines.foldl (fun m p => dinsert p.doi p m) m)).Nodup := by
  induction dumpLines generalizing m with
  | nil => exact h
  | cons p rest ih => exact ih _ (nodup_storeKeys_dinsert p.doi p m h)

lemma nodup_storeKeys_load_dump (dumpLines : List PaperRec) :
    (storeKeys (load_dump dumpLines)).Nodup :=
  nodup_storeKeys_foldl dumpLines [] (by simp [storeKeys])

lemma nodup_storeKeys_pureProcess (events : List TaskEv) (m : Store)
    (h : (storeKeys m).Nodup) : (storeKeys (pureProcess events m)).Nodup := by
  induction events generalizing m with
  | nil => exact h
  | cons e es ih =>
    cases e with
    | cancelled => exact ih m h
    | completed res cnt st =>
      cases res with
      | none => exact ih m h
      | some md => exact ih _ (nodup_storeKeys_dinsert md.doi md m h)

lemma processEvents_some (max_pdf_num : Nat) (events : List TaskEv) (m : Store) :
    processEvents (some ()) max_pdf_num events m = .ok (pureProcess events m) := by
  induction events generalizing m with
  | nil => rfl
  | cons e es ih =>
    cases e with
    | cancelled => simpa [processEvents, pureProcess] using ih m
    | completed res cnt st =>
      cases res with
      | none => simpa [processEvents, pureProcess] using ih m
      | some md =>
        by_cases hcnt : max_pdf_num < cnt <;>
          simp [processEvents, pureProcess, hcnt, ih]

lemma processEvents_none (max_pdf_num : Nat) (events : List TaskEv) (m : Store) :
    processEvents none max_pdf_num events m
      = if events.any (triggersDeref max_pdf_num) then .error .attr
        else .ok (pureProcess events m) := by
  induction events generalizing m with
  | nil => rfl
  | cons e es ih =>
    cases e with
    | cancelled => simpa [processEvents, pureProcess, triggersDeref] using ih m
    | completed res cnt st =>
      cases res with
      | none => simpa [processEvents, pureProcess, triggersDeref] using ih m
      | some md =>
        by_cases hcnt : max_pdf_num < cnt
        · have htr : triggersDeref max_pdf_num (.completed (some md) cnt st) = false := by
            simp [triggersDeref]
            omega
          simp [processEvents, pureProcess, hcnt, ih, htr]
        · have htr : triggersDeref max_pdf_num (.completed (some md) cnt st) = true := by
            simp [triggersDeref]
            omega
          simp [processEvents, hcnt, htr]

/-- Claim C2: whenever `save_pdf_from_dump_new` terminates with a supplied
`stop_event` — normal completion (`outcome = ok false`), quota exceedance
(covered by arbitrary `events`, including ones whose count exceeds the
quota), or the cancellation signal (`finalStop = true`, `outcome = ok true`,
i.e. `exit()` after the flush) — the state-store file is rewritten in full
before control leaves: its content is exactly one record per entry of the
final in-memory mapping (whose keys are distinct), produced by a truncating
rewrite, never an append or a partial write, and no exception escapes. -/
theorem save_pdf_from_dump_new_flushes (max_pdf_num : Nat)
    (dumpLines : List PaperRec) (events : List TaskEv) (finalStop : Bool) :
    (save_pdf_from_dump_new (some ()) max_pdf_num dumpLines events finalStop).file
        = some (f_save_metadata (pureProcess events (load_dump dumpLines)))
      ∧ (save_pdf_from_dump_new (some ()) max_pdf_num dumpLines events finalStop).outcome
        = .ok finalStop
      ∧ (storeKeys (pureProcess events (load_dump dumpLines))).Nodup
      ∧ (f_save_metadata (pureProcess events (load_dump dumpLines))).length
        = (storeKeys (pureProcess events (load_dump dumpLines))).length := by
  refine ⟨?_, ?_, ?_, ?_⟩
  · cases finalStop <;> simp [save_pdf_from_dump_new, processEvents_some]
  · cases finalStop <;> simp [save_pdf_from_dump_new, processEvents_some]
  · exact nodup_storeKeys_pureProcess events _ (nodup_storeKeys_load_dump dumpLines)
  · simp [f_save_metadata, storeKeys]

/-- Claim C10 (amended): with the default `stop_event = None`,
`save_pdf_from_dump_new` always ends in an `AttributeError` instead of
completing normally; when some completed task yields a metadata record while
the directory entry count is at or below `max_pdf_num`, the quota check
dereferences `stop_event` and aborts before the flush (the file is never
rewritten); when no completed task does so — in particular with zero
scheduled tasks — the flush runs first and the post-loop
`stop_event.is_set()` raises only after it. -/
theorem save_pdf_from_dump_new_none_raises (max_pdf_num : Nat)
    (dumpLines : List PaperRec) (events : List TaskEv) (finalStop : Bool) :
    (save_pdf_from_dump_new none max_pdf_num dumpLines events finalStop).outcome
        = .error .attr
      ∧ (events.any (triggersDeref max_pdf_num) = true →
          (save_pdf_from_dump_new none max_pdf_num dumpLines events finalStop).file
            = none)
      ∧ (events.any (triggersDeref max_pdf_num) = false →
          (save_pdf_from_dump_new none max_pdf_num dumpLines events finalStop).file
            = some (f_save_metadata (pureProcess events (load_dump dumpLines)))) := by
  by_cases h : events.any (triggersDeref max_pdf_num) = true
  · refine ⟨?_, fun _ => ?_, fun hc => absurd h (by simp [hc])⟩ <;>
      simp [save_pdf_from_dump_new, processEvents_none, h]
  · have h' : events.any (triggersDeref max_pdf_num) = false := by
      simpa using h
    refine ⟨?_, fun hc => absurd hc h, fun _ => ?_⟩ <;>
      simp [save_pdf_from_dump_new, processEvents_none, h']

/-- A metadata record for the C10 run: a paper whose download succeeded. -/
def paperC10W : PaperRec :=
  ⟨some "10.1101/x".toList, true, true, some .pdf, some "p/x.pdf".toList, none⟩

/-- Witness for C10: a run with `stop_event = None`, one completed task
carrying a metadata record, and 0 directory entries (at or below the quota
of 500) raises `AttributeError` with the state store never flushed. -/
theorem save_pdf_from_dump_new_none_raises_witness :
    (save_pdf_from_dump_new none 500 []
        [TaskEv.completed (some paperC10W) 0 false] false).outcome
      = .error .attr
    ∧ (save_pdf_from_dump_new none 500 []
        [TaskEv.completed (some paperC10W) 0 false] false).file = none := by
  have h := save_pdf_from_dump_new_none_raises 500 []
    [TaskEv.completed (some paperC10W) 0 false] false
  exact ⟨h.1, h.2.1 (by decide)⟩

/-- Counterexample to C10 as stated: a run with `stop_event = None` and one
scheduled task that completes with result `None` (e.g. its artifact was
deduplicated) leaves the directory count at 0 ≤ 500, yet the per-task check
is skipped by the `continue`, the flush executes (`file = some []`), and the
`AttributeError` is raised only afterwards — not "before the state-store
flush" as the claim has it for every such task. -/
theorem save_pdf_from_dump_new_none_counterexample :
    (save_pdf_from_dump_new none 500 [] [TaskEv.completed none 0 false] false).file
        = some []
      ∧ (save_pdf_from_dump_new none 500 []
          [TaskEv.completed none 0 false] false).outcome = .error .attr :=
  ⟨rfl, rfl⟩

lemma splitOnChar_ne_nil {α : Type} [DecidableEq α] (sep : α) (l : List α) :
    splitOnChar sep l ≠ [] := by
  induction l with
  | nil => simp [splitOnChar]
  | cons c cs ih =>
    rcases hsp : splitOnChar sep cs with _ | ⟨s, rest⟩
    · exact absurd hsp ih
    · simp only [splitOnChar, hsp]
      split <;> simp

lemma splitOnChar_map {α : Type} [DecidableEq α] (f : α → α) (sep : α)
    (hf : ∀ c, f c = sep ↔ c = sep) (l : List α) :
    splitOnChar sep (l.map f) = (splitOnChar sep l).map (List.map f) := by
  induction l with
  | nil => simp [splitOnChar]
  | cons c cs ih =>
    rcases hsp : splitOnChar sep cs with _ | ⟨s, rest⟩
    · exact absurd hsp (splitOnChar_ne_nil sep cs)
    · by_cases hc : c = sep
      · subst hc
        have hfc : f c = c := (hf c).mpr rfl
        simp [splitOnChar, hsp, ih, hfc]
      · have hfc : ¬ f c = sep := fun h => hc ((hf c).mp h)
        simp [splitOnChar, hsp, ih, hc, hfc]

lemma lastPart_map {α : Type} [DecidableEq α] (f : α → α) (sep : α)
    (hf : ∀ c, f c = sep ↔ c = sep) (l : List α) :
    lastPart sep (l.map f) = (lastPart sep l).map f := by
  unfold lastPart
  rw [splitOnChar_map f sep hf l]
  rcases hsp : splitOnChar sep l with _ | ⟨s, rest⟩
  · exact absurd hsp (splitOnChar_ne_nil sep l)
  · rw [List.getLastD_eq_getLast?, List.getLastD_eq_getLast?, List.getLast?_map]
    have : (s :: rest).getLast? = some ((s :: rest).getLast (by simp)) :=
      List.getLast?_eq_getLast _ _
    simp [this]

lemma lowerByte_eq_dot (b : Nat) : lowerByte b = 46 ↔ b = 46 := by
  unfold lowerByte
  split <;> omega

lemma lastPart_lowerBytes (s : Bytes) :
    lastPart 46 (lowerBytes s) = lowerBytes (lastPart 46 s) :=
  lastPart_map lowerByte 46 lowerByte_eq_dot s

/-- Claim C5: for a candidate container key, `find_meca_for_doi` issues
exactly two ranged reads — the first 4096 bytes (`bytes=0-4095`) and the
last 4096 bytes (`bytes=-4096`) — concatenates them, reads `manifest.xml`
from that window, and reports a match if and only if the trailing
dot-separated segment of the identifier's suffix (the part of the DOI after
the last `/`, as lower-cased by `fallback_s3`) occurs case-insensitively in
the manifest bytes; a failed ranged read reports no match. -/
theorem find_meca_for_doi_probe (s3Get : Bytes → ByteRange → Except PyErr Bytes)
    (readManifest : Bytes → Except PyErr Bytes) (key doi : Bytes) :
    (∀ head tail manifest,
        s3Get key (.firstBytes 0 4095) = .ok head →
        s3Get key (.lastBytes 4096) = .ok tail →
        readManifest (head ++ tail) = .ok manifest →
        find_meca_for_doi s3Get readManifest key (lowerBytes (lastPart 47 doi))
          = (.ok (containsStr (lowerBytes (lastPart 46 (lastPart 47 doi)))
                (lowerBytes manifest)),
             [ByteRange.firstBytes 0 4095, ByteRange.lastBytes 4096]))
      ∧ (∀ e, s3Get key (.firstBytes 0 4095) = .error e →
          find_meca_for_doi s3Get readManifest key (lowerBytes (lastPart 47 doi))
            = (.ok false, [ByteRange.firstBytes 0 4095]))
      ∧ (∀ head e, s3Get key (.firstBytes 0 4095) = .ok head →
          s3Get key (.lastBytes 4096) = .error e →
          find_meca_for_doi s3Get readManifest key (lowerBytes (lastPart 47 doi))
            = (.ok false,
               [ByteRange.firstBytes 0 4095, ByteRange.lastBytes 4096])) := by
  refine ⟨?_, ?_, ?_⟩
  · intro head tail manifest hh ht hm
    simp [find_meca_for_doi, hh, ht, hm, lastPart_lowerBytes]
  · intro e he
    simp [find_meca_for_doi, he]
  · intro head e hh ht
    simp [find_meca_for_doi, hh, ht]

/-- Witness for C5: probing key `k.meca` for DOI `10.1101/2021.798496`
issues the two ranged reads and matches, since `798496` (the trailing
dot-segment of the DOI suffix) occurs case-insensitively in the manifest. -/
theorem find_meca_for_doi_probe_witness :
    find_meca_for_doi s3GetC5W readManifestC5W (strBytes "k.meca")
        (lowerBytes (lastPart 47 (strBytes "10.1101/2021.798496")))
      = (.ok true, [ByteRange.firstBytes 0 4095, ByteRange.lastBytes 4096]) := by
  have h := (find_meca_for_doi_probe s3GetC5W readManifestC5W (strBytes "k.meca")
    (strBytes "10.1101/2021.798496")).1 _ _ _ rfl rfl rfl
  rw [h]
  rfl

/-- Claim C6 (amended): in `fallback_s3`, once a candidate's manifest probe
has matched (`target`), at most one full-container fetch is issued, and for
the matched key only; the first entry of that container whose *lower-cased*
name ends in `.pdf` is extracted and relocated to the destination with a
`.pdf` suffix and the call succeeds; if no entry has a PDF extension the
call returns failure after that single fetch. -/
theorem fallback_s3_single_fetch (env : Bytes → Except PyErr Bytes)
    (parseDate : Bytes → Except PyErr PyDate)
    (listObjects : Bytes → List Bytes)
    (s3Get : Bytes → ByteRange → Except PyErr Bytes)
    (readManifest : Bytes → Except PyErr Bytes)
    (getFull : Bytes → Except PyErr Bytes)
    (zipNames : Bytes → List Bytes)
    (order : List Bytes) (doi output_path mf target data : Bytes)
    (hmf : month_folder env parseDate doi = .ok mf)
    (hne : list_meca_keys
        (listObjects (strBytes "Current_Content/" ++ mf ++ strBytes "/")) ≠ [])
    (hfind : order.find?
        (probeHit s3Get readManifest (lowerBytes (lastPart 47 doi))) = some target)
    (hfull : getFull target = .ok data) :
    (∀ name,
        (zipNames data).find? (fun n => endsWith (strBytes ".pdf") (lowerBytes n))
          = some name →
        fallback_s3 env parseDate listObjects s3Get readManifest getFull zipNames
            order doi output_path
          = .ok (true, [S3Ev.fullFetch target, S3Ev.extract name,
              S3Ev.renameTo name (output_path ++ strBytes ".pdf")]))
      ∧ ((zipNames data).find? (fun n => endsWith (strBytes ".pdf") (lowerBytes n))
          = none →
        fallback_s3 env parseDate listObjects s3Get readManifest getFull zipNames
            order doi output_path
          = .ok (false, [S3Ev.fullFetch target])) := by
  have hne' : list_meca_keys
      (listObjects (strBytes "Current_Content/" ++ (mf ++ strBytes "/"))) ≠ [] := by
    rw [← List.append_assoc]
    exact hne
  constructor
  · intro name hname
    simp [fallback_s3, hmf, hne', hfind, hfull, hname]
  · intro hnone
    simp [fallback_s3, hmf, hne', hfind, hfull, hnone]

/-- Witness for C6: with one candidate `b.meca` whose manifest matches DOI
`10.1101/798496` and whose container holds `content/article.pdf`, the run
issues exactly one full fetch (of `b.meca`), extracts that first PDF entry
and relocates it onto the destination with a `.pdf` suffix. -/
theorem fallback_s3_single_fetch_witness :
    fallback_s3 s3EnvW parseDateS3W listObjectsS3W s3GetS3W readManifestS3W
        getFullS3W zipNamesS3W [strBytes "b.meca"] (strBytes "10.1101/798496")
        (strBytes "out/target")
      = .ok (true, [S3Ev.fullFetch (strBytes "b.meca"),
          S3Ev.extract (strBytes "content/article.pdf"),
          S3Ev.renameTo (strBytes "content/article.pdf")
            (strBytes "out/target" ++ strBytes ".pdf")]) := by
  have h := (fallback_s3_single_fetch s3EnvW parseDateS3W listObjectsS3W s3GetS3W
    readManifestS3W getFullS3W zipNamesS3W [strBytes "b.meca"]
    (strBytes "10.1101/798496") (strBytes "out/target")
    (month_folder_date ⟨2020, 1, 15⟩) (strBytes "b.meca") (strBytes "ZIPDATA")
    rfl (by decide) rfl rfl).1 (strBytes "content/article.pdf") rfl
  exact h

/-- Counterexample to C6 as stated: the matched container's only entry is
named `ARTICLE.PDF`, which does not end with `.pdf`, so under the claim's
wording no "entry whose name ends with .pdf" exists and the call should not
extract it — yet the code matches on the lower-cased name, extracts
`ARTICLE.PDF` and succeeds. -/
theorem fallback_s3_case_counterexample :
    fallback_s3 s3EnvW parseDateS3W listObjectsS3W s3GetS3W readManifestS3W
        getFullS3W zipNamesS3X [strBytes "b.meca"] (strBytes "10.1101/798496")
        (strBytes "out/target")
      = .ok (true, [S3Ev.fullFetch (strBytes "b.meca"),
          S3Ev.extract (strBytes "ARTICLE.PDF"),
          S3Ev.renameTo (strBytes "ARTICLE.PDF")
            (strBytes "out/target" ++ strBytes ".pdf")])
      ∧ endsWith (strBytes ".pdf") (strBytes "ARTICLE.PDF") = false :=
  ⟨rfl, rfl⟩

/-- Counterexample to C7 as stated: the `fallback_s3` strategy does raise to
its caller — its deposit-date lookup (`month_folder`) performs
`resp.raise_for_status()` outside any `try`, and `fallback_s3` calls
`month_folder` unguarded, so a failing bioRxiv API request propagates out of
the strategy instead of being normalized to a declined outcome. -/
theorem fallback_s3_raises_counterexample :
    fallback_s3 s3EnvBad parseDateBad listObjectsNone s3GetBad s3EnvBad s3EnvBad
        zipNamesNone [] (strBytes "10.1101/798496") (strBytes "out")
      = .error PyErr.net := rfl

lemma downloadPdfTo_dichotomy (env : HttpEnv) (out url : Str) :
    downloadPdfTo env out url = ((false, none), [])
      ∨ ∃ c, downloadPdfTo env out url
          = ((true, some url), [⟨out ++ Kind.pdf.ext, c⟩]) := by
  cases henv : env url with
  | error e => left; simp [downloadPdfTo, henv]
  | ok content =>
    by_cases hc : content.take 4 ≠ pdfMagic
    · left
      simp only [downloadPdfTo, henv]
      rw [if_pos hc]
    · right
      refine ⟨content, ?_⟩
      simp only [downloadPdfTo, henv]
      rw [if_neg hc]

lemma wileyAttempts_dichotomy (env : HttpEnv) (url out : Str) (n : Nat) :
    wileyAttempts env url out n = (false, [])
      ∨ ∃ c, wileyAttempts env url out n = (true, [⟨out ++ Kind.pdf.ext, c⟩]) := by
  induction n with
  | zero => left; rfl
  | succ k ih =>
    cases henv : env url with
    | error e => simp only [wileyAttempts, henv]; exact ih
    | ok content =>
      by_cases hc : content.take 4 ≠ pdfMagic
      · simp only [wileyAttempts, henv]
        rw [if_pos hc]
        exact ih
      · right
        refine ⟨content, ?_⟩
        simp only [wileyAttempts, henv]
        rw [if_neg hc]

/-- Claim C7 (amended): the strategies `fallback_doi`, `fallback_sci_hub`,
`fallback_bioc_pmc`, `fallback_wiley_api` and `fallback_elsevier_api` never
propagate an exception: on every input and every internal failure (network
error, missing tag/record, bad status, invalid credential or markup) they
return the normalized declined outcome — success `false`, null source URL
where the strategy reports one — with no file written; the only other
possible outcome is a success that writes exactly the artifact. -/
theorem strategies_normalized_decline (env : HttpEnv)
    (envS : Str → Except PyErr HttpResp) (findMeta : Str → Option Str)
    (srcOf : Str → Except PyErr Str) (parsePmcid : Str → Option Str)
    (validXml : Str → Bool) (api_key doi output_path : Str) :
    (fallback_doi env findMeta doi output_path = ((false, none), [])
      ∨ ∃ u c, fallback_doi env findMeta doi output_path
          = ((true, some u), [⟨output_path ++ Kind.pdf.ext, c⟩]))
    ∧ (fallback_sci_hub env srcOf doi output_path = ((false, none), [])
      ∨ ∃ u c, fallback_sci_hub env srcOf doi output_path
          = ((true, some u), [⟨output_path ++ Kind.pdf.ext, c⟩]))
    ∧ (fallback_bioc_pmc env parsePmcid doi output_path = ((false, none), [])
      ∨ ∃ u c, fallback_bioc_pmc env parsePmcid doi output_path
          = ((true, some u), [⟨output_path ++ Kind.xml.ext, c⟩]))
    ∧ (fallback_wiley_api env doi output_path = (false, [])
      ∨ ∃ c, fallback_wiley_api env doi output_path
          = (true, [⟨output_path ++ Kind.pdf.ext, c⟩]))
    ∧ (fallback_elsevier_api envS validXml api_key doi output_path
          = ((false, []), [elsevierUrl api_key doi])
      ∨ ∃ c, fallback_elsevier_api envS validXml api_key doi output_path
          = ((true, [⟨output_path ++ Kind.xml.ext, c⟩]),
             [elsevierUrl api_key doi])) := by
  refine ⟨?_, ?_, ?_, ?_, ?_⟩
  · cases h1 : env (doiOrgUrl doi) with
    | error e => left; simp [fallback_doi, h1]
    | ok page =>
      cases hm : findMeta page with
      | none => left; simp [fallback_doi, h1, hm]
      | some pdf_url =>
        rcases downloadPdfTo_dichotomy env output_path pdf_url with hd | ⟨c, hd⟩
        · left; simp [fallback_doi, h1, hm, hd]
        · right; exact ⟨pdf_url, c, by simp [fallback_doi, h1, hm, hd]⟩
  · cases h1 : env (sciHubUrl doi) with
    | error e => left; simp [fallback_sci_hub, h1]
    | ok page =>
      cases hs : srcOf page with
      | error e => left; simp [fallback_sci_hub, h1, hs]
      | ok src =>
        rcases downloadPdfTo_dichotomy env output_path
            (if startsWith "http".toList src then src
              else "https:".toList ++ src) with hd | ⟨c, hd⟩
        · left
          simp only [fallback_sci_hub, h1, hs]
          exact hd
        · right
          refine ⟨(if startsWith "http".toList src then src
            else "https:".toList ++ src), c, ?_⟩
          simp only [fallback_sci_hub, h1, hs]
          exact hd
  · cases h1 : env (pmcConverterUrl doi) with
    | error e => left; simp [fallback_bioc_pmc, h1]
    | ok data =>
      cases hp : parsePmcid data with
      | none => left; simp [fallback_bioc_pmc, h1, hp]
      | some pmcid =>
        cases h2 : env (biocXmlUrl pmcid) with
        | error e => left; simp [fallback_bioc_pmc, h1, hp, h2]
        | ok content =>
          by_cases hb : startsWith biocErrPrefix content = true
          · left; simp [fallback_bioc_pmc, h1, hp, h2, hb]
          · right
            exact ⟨biocXmlUrl pmcid, content,
              by simp [fallback_bioc_pmc, h1, hp, h2, hb]⟩
  · exact wileyAttempts_dichotomy env (wileyUrl doi) output_path 2
  · cases h1 : envS (elsevierUrl api_key doi) with
    | error e => left; simp [fallback_elsevier_api, h1]
    | ok resp =>
      by_cases h401 : resp.status = 401
      · left; simp [fallback_elsevier_api, h1, h401]
      · by_cases h4xx : 400 ≤ resp.status
        · left; simp [fallback_elsevier_api, h1, h401, h4xx]
        · by_cases hxml : validXml resp.body = true
          · right
            exact ⟨resp.body, by simp [fallback_elsevier_api, h1, h401, h4xx, hxml]⟩
          · left; simp [fallback_elsevier_api, h1, h401, h4xx, hxml]

/-- Counterexample to C8 as stated: `fallback_elsevier_api` keeps no state
across invocations — after a first request is rejected with a 401
`APIKEY_INVALID` answer, a later request in the same run still issues its
Elsevier API call; nothing in the code suppresses further attempts of the
strategy. -/
theorem elsevier_no_suppression_counterexample :
    fallback_elsevier_api elsEnv401 elsValidXmlW "k".toList "10.1016/j.a".toList
        "o1".toList
      = ((false, []), [elsevierUrl "k".toList "10.1016/j.a".toList])
    ∧ fallback_elsevier_api elsEnv401 elsValidXmlW "k".toList "10.1016/j.b".toList
        "o2".toList
      = ((false, []), [elsevierUrl "k".toList "10.1016/j.b".toList]) :=
  ⟨rfl, rfl⟩

/-- Claim C8 (amended): an authentication-failure answer (401) from the
Elsevier TDM API is treated as a decline of that single attempt — no file is
written, the attempt issued exactly one API call — and, the strategy being
stateless, every invocation (before or after any authentication failure)
issues its API request: no run-level suppression of further attempts
exists. -/
theorem elsevier_auth_failure_decline (envS : Str → Except PyErr HttpResp)
    (validXml : Str → Bool) (api_key doi output_path : Str) (resp : HttpResp)
    (hresp : envS (elsevierUrl api_key doi) = .ok resp)
    (h401 : resp.status = 401) :
    fallback_elsevier_api envS validXml api_key doi output_path
        = ((false, []), [elsevierUrl api_key doi])
      ∧ ∀ (envS' : Str → Except PyErr HttpResp) (validXml' : Str → Bool)
          (k' d' o' : Str),
          (fallback_elsevier_api envS' validXml' k' d' o').2
            = [elsevierUrl k' d'] := by
  constructor
  · simp [fallback_elsevier_api, hresp, h401]
  · intro envS' validXml' k' d' o'
    cases h : envS' (elsevierUrl k' d') with
    | error e => simp [fallback_elsevier_api, h]
    | ok r =>
      simp only [fallback_elsevier_api, h]
      split_ifs <;> rfl

/-- Witness for C8: under the 401 `APIKEY_INVALID` environment the strategy
declines, writes nothing, and issued exactly one API call. -/
theorem elsevier_auth_failure_decline_witness :
    fallback_elsevier_api elsEnv401 elsValidXmlW "k2".toList
        "10.1016/j.c".toList "o3".toList
      = ((false, []), [elsevierUrl "k2".toList "10.1016/j.c".toList]) :=
  (elsevier_auth_failure_decline elsEnv401 elsValidXmlW "k2".toList
    "10.1016/j.c".toList "o3".toList ⟨401, "APIKEY_INVALID".toList⟩ rfl rfl).1

/-- Claim C9: `month_folder` maps a deposit date to its `Month_Year` bucket:
a date that is the last calendar day of its month is rolled forward one day,
so the bucket names the following month (January of the next year after
December); every other date resolves to its own month's bucket. -/
theorem month_folder_rollover (env : Bytes → Except PyErr Bytes)
    (parseDate : Bytes → Except PyErr PyDate) (doi body : Bytes) (d : PyDate)
    (henv : env (biorxivUrl doi) = .ok body)
    (hparse : parseDate body = .ok d) :
    (d.day = monthrange d.year d.month →
        month_folder env parseDate doi
          = .ok (strftimeBY (if d.month < 12 then ⟨d.year, d.month + 1, 1⟩
              else ⟨d.year + 1, 1, 1⟩)))
      ∧ (d.day ≠ monthrange d.year d.month →
        month_folder env parseDate doi = .ok (strftimeBY d)) := by
  constructor
  · intro h
    simp only [month_folder, henv, hparse, month_folder_date]
    rw [if_pos h]
    simp [nextDayDate, h]
  · intro h
    simp only [month_folder, henv, hparse, month_folder_date]
    rw [if_neg h]

/-- Witness for C9: a deposit date of 2019-04-30 — the last day of April —
resolves to the `May_2019` bucket, not `April_2019`. -/
theorem month_folder_rollover_witness :
    month_folder mfEnvW mfParseW (strBytes "10.1101/798496")
      = .ok (strBytes "May_2019") := by
  have h := (month_folder_rollover mfEnvW mfParseW (strBytes "10.1101/798496")
    [] ⟨2019, 4, 30⟩ rfl rfl).1 (by decide)
  rw [h]
  rfl

lemma envC3W_no_pdf : ∀ u b, envC3W u = .ok b → startsWith pdfMagic b = false := by
  intro u b h
  injection h with hb
  subst hb
  decide

/-- Witness for C3: in a world where every response is an HTML page (HTTP
success, body not starting with `%PDF`), each PDF strategy declines and
leaves no file behind. -/
theorem pdf_signature_validation_witness :
    fallback_doi envC3W findMetaC3W "10.1/x".toList "out".toList
        = ((false, none), [])
      ∧ fallback_sci_hub envC3W srcOfC3W "10.1/x".toList "out".toList
        = ((false, none), [])
      ∧ (fallback_arxiv envC3W "10.1/x".toList "out".toList).2 = []
      ∧ fallback_wiley_api envC3W "10.1/x".toList "out".toList = (false, []) := by
  have h := pdf_signature_validation envC3W findMetaC3W srcOfC3W
    "10.1/x".toList "out".toList envC3W_no_pdf
  exact ⟨h.1, h.2.1, h.2.2.1, h.2.2.2.2⟩

end PaperScraper
